import Mathlib

/-!
Shallow embedding of the Kisekauto core (kisekauto/types/subcodes.py,
kisekauto/types/components.py, kisekauto/types/chunk.py, kisekauto/mixer.py).

Python strings are Lean `String`s, but all string manipulation is done through
fuel-based helpers over `List Char` so that everything reduces in the kernel.
Python dicts (insertion-ordered, overwrite keeps the original position) are
association lists manipulated through `alistFind` / `alistInsert`.
Fallible Python code (raised exceptions) is modelled with `Option` / `Except`.
The registry data (subcodes.json / components.json) is collaborator input, so
all parsing entry points take an explicit `Registry` argument.
-/

/-! ## String helpers (Python `str.split`, `str.join`, formatting) -/

/-- Greedy left-to-right split on a non-empty separator, as Python `s.split(sep)`.
Fuel-based so that it reduces in the kernel; fuel must exceed the scanned length. -/
def splitOnCharsF : Nat → List Char → List Char → List Char → List (List Char)
  | 0, _, _, acc => [acc.reverse]
  | _ + 1, _, [], acc => [acc.reverse]
  | fuel + 1, sep, c :: rest, acc =>
    if sep.isPrefixOf (c :: rest) then
      acc.reverse :: splitOnCharsF fuel sep (List.drop sep.length (c :: rest)) []
    else
      splitOnCharsF fuel sep rest (acc.reverse ++ [c]).reverse

/-- Python `data.split(sep)` for a non-empty `sep`. -/
def strSplitOn (sep data : String) : List String :=
  (splitOnCharsF (data.toList.length + 1) sep.toList data.toList []).map String.mk

/-- Python `sep.join(parts)`. -/
def strJoinSep (sep : String) (parts : List String) : String :=
  String.mk (List.intercalate sep.toList (parts.map String.toList))

/-- Python `'{:02}'.format(i)`: pad a number to width 2 with a leading zero. -/
def pad2 (i : Int) : String :=
  if 0 ≤ i ∧ i < 10 then "0" ++ toString i else toString i

/-- Python `int(s)` restricted to an optional sign followed by decimal digits
(`None` on anything else, modelling the `ValueError`). -/
def parseInt? (s : String) : Option Int :=
  match s.toList with
  | '-' :: rest => if rest ≠ [] ∧ rest.all Char.isDigit then
      some (-(Int.ofNat (rest.foldl (fun n c => 10 * n + (c.toNat - 48)) 0))) else none
  | '+' :: rest => if rest ≠ [] ∧ rest.all Char.isDigit then
      some (Int.ofNat (rest.foldl (fun n c => 10 * n + (c.toNat - 48)) 0)) else none
  | l => if l ≠ [] ∧ l.all Char.isDigit then
      some (Int.ofNat (l.foldl (fun n c => 10 * n + (c.toNat - 48)) 0)) else none

/-! ## Association-list helpers (Python insertion-ordered `dict`) -/

/-- Python `d.get(k)` / `d[k]` lookup. -/
def alistFind [DecidableEq κ] (l : List (κ × α)) (k : κ) : Option α :=
  (l.find? (fun p => p.1 = k)).map (·.2)

/-- Python `d[k] = v`: overwrite keeps the original position, new keys append. -/
def alistInsert [DecidableEq κ] (l : List (κ × α)) (k : κ) (v : α) : List (κ × α) :=
  if l.any (fun p => p.1 = k) then
    l.map (fun p => if p.1 = k then (k, v) else p)
  else l ++ [(k, v)]

/-- Python `k in d`. -/
def alistContains [DecidableEq κ] (l : List (κ × α)) (k : κ) : Bool :=
  l.any (fun p => p.1 = k)

/-! ## Constants (kisekauto/types/__init__.py, class Consts) -/

def Consts.singleDigits : List String := ["u"]
def Consts.sceneDelim : String := "#/]"
def Consts.assetDelim : String := "/#]"

/-! ## SubcodeType (subcodes.py) -/

/-- `SubcodeType`: immutable field-layout spec for one subcode kind. -/
structure SubcodeType where
  name : String
  tag : String
  names : List String
  poses : List String
  colors : List String
  exprs : List String
  clothes : List String
  body : List String
  lerp : List String
deriving DecidableEq

/-- `SubcodeType.__getitem__` with an `int` key (callers only use indices ≥ 0):
out-of-range indices give `''`. -/
def SubcodeType.fieldAt (t : SubcodeType) (i : Nat) : String :=
  t.names.getD i ""

/-- `SubcodeType.__getitem__` with a `str` key: the position of the field name,
or `-1` when the name is unknown. -/
def SubcodeType.nameIndex (t : SubcodeType) (key : String) : Int :=
  match t.names.findIdx? (fun n => n = key) with
  | some i => (i : Int)
  | none => -1

/-! ## Subcode (subcodes.py) -/

/-- An instance of a subcode: its spec, the pieces, the optional array index
(`-1` = not an array member) and the tag actually used in text. -/
structure Subcode where
  subcode_type : SubcodeType
  pieces : List String
  index : Int
  tag : String
deriving DecidableEq

/-- `Subcode.getPrefix` (the name avoids a reserved word): tag plus the
formatted index when `index >= 0`; single-digit tags use width 1, others width 2. -/
def Subcode.headerStr (s : Subcode) : String :=
  s.tag ++ (if 0 ≤ s.index then
    (if Consts.singleDigits.contains s.tag then toString s.index else pad2 s.index)
    else "")

/-- `Subcode.__str__`: the header, then the dot-joined pieces unless the first
piece is empty (the filter drops every piece in that case; an empty pieces list
joins to nothing because the filter body is never evaluated). -/
def Subcode.str (s : Subcode) : String :=
  s.headerStr ++ strJoinSep "." (match s.pieces with
    | [] => []
    | p :: _ => if p = "" then [] else s.pieces)

/-- `Subcode.__len__`: `0` if there is more than one piece and the first is
empty, otherwise the raw length (so the singleton `['']` reports 1). -/
def Subcode.len (s : Subcode) : Nat :=
  if s.pieces.length > 1 ∧ s.pieces.head? = some "" then 0 else s.pieces.length

/-- `Subcode.__getitem__` with an `int` key: `'0'` out of range. -/
def Subcode.getAt (s : Subcode) (key : Int) : String :=
  if key < 0 ∨ (s.pieces.length : Int) ≤ key then "0"
  else s.pieces.getD key.toNat "0"

/-- `Subcode.__getitem__` with a `str` key: `self.pieces[self.subcode_type[key]]`
guarded by `except IndexError: return '0'`. When the name is unknown the index
is `-1`, and Python's negative indexing returns the LAST piece (or raises
`IndexError` on an empty list, caught and turned into `'0'`). -/
def Subcode.getByName (s : Subcode) (key : String) : String :=
  match s.subcode_type.names.findIdx? (fun n => n = key) with
  | some i => s.pieces.getD i "0"
  | none => s.pieces.getLast?.getD "0"

/-- `Subcode.__setattr__` routed through `__setitem__` for a recognized field
name: pad with `'0'` up to the index, then assign `str(value)`. An unrecognized
name becomes a plain instance attribute in Python, leaving `pieces` unchanged
(and nothing downstream reads such attributes before writing them). -/
def Subcode.setByName (s : Subcode) (key value : String) : Subcode :=
  match s.subcode_type.names.findIdx? (fun n => n = key) with
  | none => s
  | some i =>
    let ps := if s.pieces.length ≤ i then
        s.pieces ++ List.replicate (i + 1 - s.pieces.length) "0"
      else s.pieces
    { s with pieces := ps.set i value }

/-- Errors `Subcode.merge` can raise: the explicit
`ValueError('Subcode Types do not match!')` and the `IndexError` from
`self.pieces[i] = other_code` when `i` is past the end of `self.pieces`. -/
inductive MergeErr where
  | typeMismatch
  | indexError
deriving DecidableEq

/-- The overwrite loop of `Subcode.merge`: for each position of `other.pieces`,
overwrite `self.pieces[i]` when the mode requests the field's category. -/
def Subcode.mergeLoop (selfTy : SubcodeType) (mode : String) (modes : List String) :
    List String → Nat → List String → Except MergeErr (List String)
  | [], _, cur => .ok cur
  | oc :: rest, i, cur =>
    let name := selfTy.fieldAt i
    let override := mode = "all" ∨
      (modes.contains "color" ∧ selfTy.colors.contains name) ∨
      (modes.contains "pose" ∧ selfTy.poses.contains name) ∨
      (modes.contains "expr" ∧ selfTy.exprs.contains name) ∨
      (modes.contains "clothes" ∧ selfTy.clothes.contains name) ∨
      (modes.contains "body" ∧ selfTy.body.contains name)
    if override then
      if i < cur.length then Subcode.mergeLoop selfTy mode modes rest (i + 1) (cur.set i oc)
      else .error .indexError
    else Subcode.mergeLoop selfTy mode modes rest (i + 1) cur

/-- `Subcode.merge(other, mode)`: type mismatch raises; `all` mode with a
length-zero `other` clears the pieces; otherwise positions of `other.pieces`
overwrite positions of `self.pieces` when the mode covers them. -/
def Subcode.merge (s other : Subcode) (mode : String) : Except MergeErr Subcode :=
  if s.subcode_type ≠ other.subcode_type then .error .typeMismatch
  else if mode = "all" ∧ other.len = 0 then .ok { s with pieces := [] }
  else
    (Subcode.mergeLoop s.subcode_type mode (strSplitOn "." mode) other.pieces 0 s.pieces).map
      (fun ps => { s with pieces := ps })

/-! ## ComponentType and the registry (components.py) -/

/-- `ComponentType`: name plus the `singles` and `arrays` tag tables. Each
entry maps a tag to an optional rename and the SubcodeType for that tag. -/
structure ComponentType where
  name : String
  singles : List (String × (Option String × SubcodeType))
  arrays : List (String × (Option String × SubcodeType))
deriving DecidableEq

/-- `ComponentType.__getitem__`: `(isArray, rename, subcodeType)`; a tag in
neither table raises `KeyError`. -/
def ComponentType.lookup (c : ComponentType) (key : String) :
    Option (Bool × Option String × SubcodeType) :=
  match alistFind c.singles key with
  | some pr => some (false, pr.1, pr.2)
  | none => (alistFind c.arrays key).map (fun pr => (true, pr.1, pr.2))

/-- The component registry built from `components.json` (collaborator data). -/
structure Registry where
  components : List ComponentType
deriving DecidableEq

/-- `_components_by_id[key]`: Python dict built by insertion, so a duplicated
name resolves to the last entry. -/
def Registry.byId (r : Registry) (k : String) : Option ComponentType :=
  (r.components.filter (fun c => c.name = k)).getLast?

/-- `_components_by_prefix[key]`: the last component owning the tag wins. -/
def Registry.byTag (r : Registry) (k : String) : Option ComponentType :=
  (r.components.filter (fun c => alistContains c.singles k || alistContains c.arrays k)).getLast?

/-- `ComponentType.classGet`: by name first, then by tag; `KeyError` is `none`. -/
def Registry.classGet (r : Registry) (k : String) : Option ComponentType :=
  match r.byId k with
  | some c => some c
  | none => r.byTag k

/-- `ComponentType.isComponent`. -/
def Registry.isComponent (r : Registry) (k : String) : Bool :=
  r.components.any (fun c => c.name = k)

/-! ## Subcode.fromString (subcodes.py) -/

/-- `Subcode.fromString(src)`: `None` for inputs of length ≤ 1; otherwise the
tag/index/data decomposition, then the registry lookups. A non-digit where a
second index digit is expected is the `ValueError` from `int(src[1:3])`; a
failed registry lookup is the `KeyError`; both are `none`. -/
def Subcode.fromString (reg : Registry) (src : String) : Option Subcode :=
  match src.toList with
  | [] => none
  | [_] => none
  | c0 :: c1 :: rest =>
    let parsed : Option (String × Int × String) :=
      if c1.isDigit then
        let pfx := String.mk [c0]
        if Consts.singleDigits.contains pfx ∨ rest = [] then
          some (pfx, (Int.ofNat (c1.toNat - 48)), String.mk rest)
        else
          match rest with
          | c2 :: rest2 =>
            if c2.isDigit then
              some (pfx, (Int.ofNat (10 * (c1.toNat - 48) + (c2.toNat - 48))), String.mk rest2)
            else none
          | [] => none
      else
        some (String.mk [c0, c1], -1, String.mk rest)
    parsed.bind (fun q =>
      (reg.classGet q.1).bind (fun component =>
        (component.lookup q.1).map (fun entry =>
          ⟨entry.2.2, strSplitOn "." q.2.2, q.2.1, q.1⟩)))

/-! ## Component (components.py) -/

/-- An instance of a component: its spec and the insertion-ordered subcode map. -/
structure Component where
  spec : ComponentType
  subcodes : List (String × Subcode)
deriving DecidableEq

/-- The composite key used by `Component.add`: tag plus the formatted index for
array members (`index != -1`). -/
def Subcode.compositeKey (sc : Subcode) : String :=
  sc.tag ++ (if sc.index ≠ -1 then
    (if Consts.singleDigits.contains sc.tag then toString sc.index else pad2 sc.index)
    else "")

/-- `Component.add` with an already-built Subcode argument. -/
def Component.addSub (c : Component) (sc : Subcode) : Component :=
  { c with subcodes := alistInsert c.subcodes sc.compositeKey sc }

/-- `Component.add` with a string argument: parse, then store under the
composite key (later adds of the same key replace earlier ones in place). -/
def Component.add (reg : Registry) (c : Component) (data : String) : Option Component :=
  (Subcode.fromString reg data).map (fun sc => c.addSub sc)

/-- `Component.__getitem__` / `__getattr__`: a missing key is first populated
with `Subcode.fromString(key)` and the entry is returned together with the
mutated component. (Python would store `None` for an unparseable key; that is
collapsed into the `none` result here.) -/
def Component.getItem (reg : Registry) (c : Component) (key : String) :
    Option (Subcode × Component) :=
  match alistFind c.subcodes key with
  | some sc => some (sc, c)
  | none => (Subcode.fromString reg key).map
      (fun sc => (sc, { c with subcodes := alistInsert c.subcodes key sc }))

/-- `Component.__str__`: subcode renders joined with `_`. -/
def Component.str (c : Component) : String :=
  strJoinSep "_" (c.subcodes.map (fun p => p.2.str))

/-- `Component.merge`: key-wise union; existing keys merge via `Subcode.merge`,
new keys are adopted wholesale. -/
def Component.merge (c other : Component) (mode : String) : Except MergeErr Component :=
  other.subcodes.foldlM (fun cur p =>
    match alistFind cur.subcodes p.1 with
    | none => .ok { cur with subcodes := alistInsert cur.subcodes p.1 p.2 }
    | some mine => (Subcode.merge mine p.2 mode).map
        (fun m => { cur with subcodes := alistInsert cur.subcodes p.1 m })) c

/-- The inner loop of `Component.exclude` for one `arrays` entry. The Python
source formats the probe key from `max_index` (not the loop variable `i`) and
without the tag, so every iteration probes the same key, `str(max_index)`
zero-padded; the first iteration that finds it absent inserts at `index = i`
(necessarily `i = 0`) and breaks. -/
def Component.excludeArrayLoop (cur : Component) (tag : String) (st : SubcodeType)
    (maxIndex : Nat) : Component :=
  let probe := if Consts.singleDigits.contains tag then toString maxIndex
    else pad2 (Int.ofNat maxIndex)
  match (List.range maxIndex).find? (fun _ => ¬ alistContains cur.subcodes probe) with
  | some i =>
    let sc : Subcode := ⟨st, List.replicate st.names.length "", (i : Int), tag⟩
    { cur with subcodes := alistInsert cur.subcodes probe sc }
  | none => cur

/-- `Component.exclude`: synthesize an empty placeholder (pieces all `''`,
`index = -1`) under each missing singles tag, then run the (buggy) arrays loop
with `max_index` 9 for single-digit tags and 99 otherwise. -/
def Component.exclude (c : Component) : Component :=
  let c1 := c.spec.singles.foldl (fun cur p =>
    if alistContains cur.subcodes p.1 then cur
    else
      let sc : Subcode := ⟨p.2.2, List.replicate p.2.2.names.length "", -1, p.1⟩
      { cur with subcodes := alistInsert cur.subcodes p.1 sc }) c
  c.spec.arrays.foldl (fun cur p =>
    Component.excludeArrayLoop cur p.1 p.2.2
      (if Consts.singleDigits.contains p.1 then 9 else 99)) c1

/-! ## Chunk (chunk.py) -/

/-- One model or the scene: the component map plus opaque assets. -/
structure Chunk where
  components : List (ComponentType × Component)
  assets : List String
deriving DecidableEq

/-- `Chunk()` — parsing the empty string leaves no components and no assets. -/
def Chunk.empty : Chunk := ⟨[], []⟩

/-- `Chunk.parse`: split off assets at the asset delimiter, split the head on
`_`, drop empty tokens, and route every token to the component owning its tag
(components created on first use, in encounter order). Any subcode or registry
failure aborts the parse. -/
def Chunk.parse (reg : Registry) (data : String) : Option Chunk :=
  let pieces := strSplitOn Consts.assetDelim data
  let srcs := (strSplitOn "_" (pieces.headD "")).filter (fun x => x ≠ "")
  srcs.foldlM (fun ch src =>
    (Subcode.fromString reg src).bind (fun sc =>
      (reg.classGet sc.tag).bind (fun ctype =>
        let comp := (alistFind ch.components ctype).getD ⟨ctype, []⟩
        (Component.add reg comp src).map (fun comp =>
          { ch with components := alistInsert ch.components ctype comp }))))
    ({ components := [], assets := pieces.drop 1 } : Chunk)

/-- `Chunk.__str__`: non-empty component renders joined with `_`, then the
asset delimiter and assets when any exist. -/
def Chunk.str (ch : Chunk) : String :=
  let base := strJoinSep "_" ((ch.components.map (fun p => p.2.str)).filter (fun x => x ≠ ""))
  if ch.assets ≠ [] then base ++ Consts.assetDelim ++ strJoinSep Consts.assetDelim ch.assets
  else base

/-- `Chunk.__getattr__`: resolve the ComponentType by name/tag (a `KeyError`
is `none`), create and store an empty component on first reference, and return
it together with the (possibly mutated) chunk. -/
def Chunk.getattr (reg : Registry) (ch : Chunk) (key : String) :
    Option (Component × Chunk) :=
  (reg.classGet key).map (fun ctype =>
    match alistFind ch.components ctype with
    | some comp => (comp, ch)
    | none => (⟨ctype, []⟩, { ch with components := alistInsert ch.components ctype ⟨ctype, []⟩ }))

/-- `Chunk.merge`: the asset list is wholly replaced by `other`'s; components
merge key-by-key, creating empty destinations for new ComponentTypes. -/
def Chunk.merge (ch other : Chunk) (mode : String) : Option Chunk :=
  other.components.foldlM (fun cur p =>
    let mine := (alistFind cur.components p.1).getD ⟨p.1, []⟩
    (Component.merge mine p.2 mode).toOption.map (fun m =>
      { cur with components := alistInsert cur.components p.1 m }))
    { ch with assets := other.assets }

/-! ## Code (chunk.py) -/

/-- The full exported state: 9 model slots, an optional scene, a version. -/
structure Code where
  models : List (Option Chunk)
  scene : Option Chunk
  version : Int
deriving DecidableEq

/-- `Code()` before parsing anything: version −1, no chunks. -/
def Code.empty : Code := ⟨List.replicate 9 none, none, -1⟩

/-- `Code.parse`: empty input keeps the fresh (version −1) state. Otherwise
split on `**` and keep the first two pieces (any text after a second `**` is
discarded); a missing version prefix defaults to 68 and a non-numeric one is a
`ValueError`. An empty remainder raises `IndexError` at `rest[0]`. A leading
`*` allocates an empty scene placeholder. The left of the scene delimiter is
split on `*` into model segments (`'0'` = empty slot; assigning past slot 8
raises `IndexError`); text after the delimiter re-parses the scene chunk. -/
def Code.parse (reg : Registry) (data : String) : Option Code :=
  if data = "" then some Code.empty
  else
    (match strSplitOn "**" data with
      | [v] => some ((68 : Int), v)
      | v :: r :: _ => (parseInt? v).map (fun n => (n, r))
      | [] => none).bind (fun vr =>
    (match vr.2.toList with
      | [] => none
      | c :: cs => if c = '*' then some (some Chunk.empty, String.mk cs)
          else some ((none : Option Chunk), vr.2)).bind (fun sr =>
    let modelScene := strSplitOn Consts.sceneDelim sr.2
    ((strSplitOn "*" (modelScene.headD "")).enum.foldlM
      (fun (arr : List (Option Chunk)) (p : Nat × String) =>
        if p.2 = "0" then some arr
        else if p.1 < 9 then
          (Chunk.parse reg p.2).map (fun ch => arr.set p.1 (some ch))
        else none)
      (List.replicate 9 none)).bind (fun modelsArr =>
    (match modelScene with
      | _ :: s :: _ => (Chunk.parse reg s).map some
      | _ => some sr.1).map (fun scene =>
    ⟨modelsArr, scene, vr.1⟩))))

/-- `Code.__str__`: version and `**`; with a scene, all nine slots are emitted
(`'0'` for empty ones) each preceded by `*`, then the scene delimiter and the
scene render; with no scene, only slot 0's render (if any) follows. -/
def Code.str (c : Code) : String :=
  let base := toString c.version ++ "**"
  match c.scene with
  | some sc =>
    base ++ String.join (c.models.map (fun m =>
      "*" ++ (match m with | none => "0" | some ch => ch.str)))
      ++ Consts.sceneDelim ++ sc.str
  | none =>
    match c.models with
    | some m :: _ => base ++ m.str
    | _ => base

/-! ## Version migration (chunk.py, `Code._convertShoe` / `Code.convertVer`) -/

/-- The shoe remap table of `Code._convertShoe`, keyed by the old shoe type.
Entries are (replacement type, replacement top, and for the three color slots
the name of an existing field to copy from, `none` = leave unchanged). -/
def shoeRemap : List (String × (Option String × Option String × Option String ×
    Option String × Option String)) :=
  [ ("0",  (none,      some "1",  some "Color2", none,          some "Color1")),
    ("1",  (none,      some "2",  some "Color2", none,          some "Color3")),
    ("10", (some "1",  some "3",  some "Color2", none,          some "Color3")),
    ("11", (some "1",  some "4",  some "Color2", none,          some "Color3")),
    ("15", (none,      some "6",  some "Color2", none,          some "Color1")),
    ("16", (some "1",  some "7",  some "Color2", none,          some "Color3")),
    ("17", (some "14", some "8",  some "Color1", some "Color2", some "Color3")),
    ("18", (some "14", some "9",  some "Color1", some "Color2", some "Color3")),
    ("19", (some "15", some "10", some "Color2", none,          some "Color3")),
    ("20", (some "16", some "11", some "Color2", none,          none)) ]

/-- `Code._convertShoe`: all field reads happen before the writes. -/
def convertShoe (shoe : Subcode) : Subcode :=
  match alistFind shoeRemap (shoe.getByName "Type") with
  | none => shoe
  | some e =>
    let eType := e.1
    let eTop := e.2.1
    let eTc1 := e.2.2.1
    let eTc2 := e.2.2.2.1
    let eC2 := e.2.2.2.2
    let shoetype := match eType with | none => shoe.getByName "Type" | some v => v
    let top := match eTop with | none => shoe.getByName "Top" | some v => v
    let topColor1 := match eTc1 with | none => shoe.getByName "TopColor1" | some f => shoe.getByName f
    let topColor2 := match eTc2 with | none => shoe.getByName "TopColor2" | some f => shoe.getByName f
    let color2 := match eC2 with | none => shoe.getByName "Color2" | some f => shoe.getByName f
    ((((shoe.setByName "Type" shoetype).setByName "Top" top).setByName
      "TopColor1" topColor1).setByName "TopColor2" topColor2).setByName "Color2" color2

/-- The per-model body of `Code.convertVer`. Note the source reads
`model.Clothing` BEFORE testing `ComponentType.Clothing in model`, so the
Clothing component is created on every model; `clothes.jd` / `clothes.je`
likewise create absent shoe subcodes before converting them. Registry lookups
for `Expression`, `Clothing`, `hd`, `jd`, `je` raise `KeyError` on failure. -/
def Code.convertModel (reg : Registry) (model : Chunk) : Option Chunk :=
  (reg.classGet "Expression").bind (fun exprT =>
  (if alistContains model.components exprT then
    let expr := (alistFind model.components exprT).getD ⟨exprT, []⟩
    (Component.getItem reg expr "hd").map (fun q =>
      let hd := ((q.1.setByName "OffsetX" "50").setByName "OffsetY" "50").setByName "Rotation" "50"
      let expr := { q.2 with subcodes := alistInsert q.2.subcodes "hd" hd }
      { model with components := alistInsert model.components exprT expr })
  else some model).bind (fun model =>
  (reg.classGet "Clothing").bind (fun clothT =>
  let model := if alistContains model.components clothT then model
    else { model with components := alistInsert model.components clothT ⟨clothT, []⟩ }
  let clothes := (alistFind model.components clothT).getD ⟨clothT, []⟩
  (Component.getItem reg clothes "jd").bind (fun qd =>
  let clothes := { qd.2 with subcodes := alistInsert qd.2.subcodes "jd" (convertShoe qd.1) }
  (Component.getItem reg clothes "je").map (fun qe =>
  let clothes := { qe.2 with subcodes := alistInsert qe.2.subcodes "je" (convertShoe qe.1) }
  { model with components := alistInsert model.components clothT clothes })))))

/-- `Code.convertVer(new)`: a no-op unless `version < 83 <= new`; when it
fires, every model is migrated and the version becomes `new`. -/
def Code.convertVer (reg : Registry) (c : Code) (new : Int) : Option Code :=
  if c.version ≥ 83 ∨ new < 83 then some c
  else
    (c.models.mapM (fun m => match m with
      | none => some none
      | some model => (Code.convertModel reg model).map some)).map
      (fun models => { c with models := models, version := new })

/-! ## Code.merge (chunk.py) -/

/-- The scene half of `Code.merge`: if `other` has a scene, merge it into
`self`'s scene (created empty when missing). -/
def Code.mergeScene (a b : Code) : Option Code :=
  match b.scene with
  | none => some a
  | some bs => (Chunk.merge (a.scene.getD Chunk.empty) bs "all").map
      (fun s => { a with scene := some s })

/-- The model half of `Code.merge`: pairwise over the 9 slots, creating an
empty destination chunk wherever `other` has data and `self` does not. -/
def Code.mergeModels (a b : Code) : Option Code :=
  ((a.models.zip b.models).mapM (fun (p : Option Chunk × Option Chunk) => match p.2 with
    | none => some p.1
    | some tc => (Chunk.merge (p.1.getD Chunk.empty) tc "all").map some)).map
    (fun ms => { a with models := ms })

/-- `Code.merge(other)`: when versions differ, the lower side is passed through
`convertVer` targeting the higher version (`other` on a private copy, `self`
in place — value semantics make the copy implicit here); then scene and model
slots are merged. -/
def Code.merge (reg : Registry) (a b : Code) : Option Code :=
  (if a.version > b.version then (Code.convertVer reg b a.version).map (fun b2 => (a, b2))
   else if a.version < b.version then (Code.convertVer reg a b.version).map (fun a2 => (a2, b))
   else some (a, b)).bind (fun q =>
  (Code.mergeScene q.1 q.2).bind (fun a2 => Code.mergeModels a2 q.2))

/-! ## Mixer (mixer.py) -/

/-- `Source`: compatibility tag sets plus the Codes the path resolves to.
`codes` stands for the cached result of `Source.codes()` — the file loading
itself is collaborator I/O outside the core. -/
structure Source where
  source : String
  name : String
  path : String
  blacklist : List String
  whitelist : List String
  tags : List String
  codes : List Code
deriving DecidableEq

/-- `Option` in mixer.py (renamed: `Option` is taken in Lean). -/
structure MixerOption where
  name : String
  sources : List Source
deriving DecidableEq

/-- `MixerProgram`: output prefix plus the ordered option list. -/
structure MixerProgram where
  destdir : String
  options : List MixerOption
deriving DecidableEq

/-- Python `a.intersection(b) != set()` on tag sets. -/
def interNonempty (a b : List String) : Bool :=
  a.any (fun x => b.contains x)

/-- Python `a.union(b)` on tag sets (membership is all that matters). -/
def listUnion (a b : List String) : List String :=
  a ++ b.filter (fun x => ¬ a.contains x)

/-- Python `len(a.difference(b)) != 0`. -/
def diffNonempty (a b : List String) : Bool :=
  a.any (fun x => ¬ b.contains x)

/-- Python `total[name] = code` on the accumulated dict. -/
def dictInsert (l : List (String × Code)) (k : String) (v : Code) : List (String × Code) :=
  alistInsert l k v

/-- `MixerProgram._enumerate_codes(index, tags, blacklist, whitelist)`,
recursion over the remaining options (fuel = remaining option count; the
initial call on an empty options list is Python's `IndexError`, i.e. `none`).
At the terminal option the source of the TypeError in the Python source
(`name += sci`, an `str + int`) fires exactly when a source resolves to more
than one code, aborting the enumeration. -/
def enumAuxF (reg : Registry) : Nat → List MixerOption → List String → List String →
    List String → Option (List (String × Code))
  | 0, _, _, _, _ => none
  | fuel + 1, opts, tags, bl, wl =>
    match opts with
    | [] => none
    | opt :: rest =>
      opt.sources.foldlM (fun total source =>
        if interNonempty source.tags bl || interNonempty source.blacklist tags then
          some total
        else
          let wlNew := listUnion wl source.whitelist
          let tagsNew := listUnion tags source.tags
          let whitelisted := (!wlNew.isEmpty) && diffNonempty wlNew tagsNew && rest.isEmpty
          if whitelisted then some total
          else if !rest.isEmpty then
            let blNew := listUnion bl source.blacklist
            (enumAuxF reg fuel rest tagsNew blNew wlNew).bind (fun ext =>
              source.codes.enum.foldlM (fun tot (p : Nat × Code) =>
                let basename := source.name ++
                  (if source.codes.length > 1 then toString p.1 else "")
                ext.foldlM (fun t (q : String × Code) =>
                  (Code.merge reg p.2 q.2).map (fun code =>
                    dictInsert t (basename ++ "_" ++ q.1) code)) tot) total)
          else
            if source.codes.length > 1 then none
            else some (source.codes.foldl (fun t c => dictInsert t source.name c) total))
        []

/-- Python `os.path.join(a, b)` for the cases arising here. -/
def osPathJoin (a b : String) : String :=
  if b.toList.headD ' ' = '/' then b
  else if a = "" then b
  else if a.toList.getLast? = some '/' then a ++ b
  else a ++ "/" ++ b

/-- `MixerProgram.enumerate_codes`: run the recursion from empty accumulators
and prefix every surviving name with the destination directory. -/
def MixerProgram.enumerate (reg : Registry) (p : MixerProgram) :
    Option (List (String × Code)) :=
  (enumAuxF reg p.options.length p.options [] [] []).map
    (fun l => l.map (fun q => (osPathJoin p.destdir q.1, q.2)))

/-! ## Concrete fixtures

A small registry in the shape of the spec's illustrative schema (a subcode
kind `aa` with fields `x`,`y` inside a component `Body`), plus fixtures for
the mixer and `Component.exclude` scenarios. The registry data files are
collaborator input, so these stand for one admissible registry. -/

def tyAA : SubcodeType := ⟨"aa", "aa", ["x", "y"], [], [], [], [], [], []⟩
def ctBody : ComponentType := ⟨"Body", [("aa", (none, tyAA))], []⟩
def testReg : Registry := ⟨[ctBody]⟩

def tyAB : SubcodeType := ⟨"ab", "ab", ["x"], [], [], [], [], [], []⟩
def tyU : SubcodeType := ⟨"u", "u", ["a", "b"], [], [], [], [], [], []⟩
def ctHair : ComponentType := ⟨"Hair", [("ab", (none, tyAB))], [("u", (none, tyU))]⟩

/-- An empty Code at version `v`. -/
def emptyCodeV (v : Int) : Code := ⟨List.replicate 9 none, none, v⟩

def srcWlOnly : Source :=
  ⟨"external", "A", "", [], ["formal"], [], [emptyCodeV 68]⟩
def srcTagFormal : Source :=
  ⟨"external", "B", "", [], [], ["formal"], [emptyCodeV 68]⟩
def progWlAlone : MixerProgram := ⟨"out", [⟨"OptA", [srcWlOnly]⟩]⟩
def progWlPair : MixerProgram := ⟨"out", [⟨"OptA", [srcWlOnly]⟩, ⟨"OptB", [srcTagFormal]⟩]⟩

def srcTagRed : Source := ⟨"external", "A", "", [], [], ["red"], [emptyCodeV 68]⟩
def srcBlRed : Source := ⟨"external", "B", "", ["red"], [], [], [emptyCodeV 68]⟩
def progRed : MixerProgram := ⟨"out", [⟨"OptA", [srcTagRed]⟩, ⟨"OptB", [srcBlRed]⟩]⟩

def srcTwoCodes : Source := ⟨"external", "S", "", [], [], [], [emptyCodeV 68, emptyCodeV 70]⟩
def srcOneCode : Source := ⟨"external", "T", "", [], [], [], [emptyCodeV 68]⟩
def progTwoTerminal : MixerProgram := ⟨"out", [⟨"OptA", [srcTwoCodes]⟩]⟩
def progTwoInner : MixerProgram := ⟨"out", [⟨"OptA", [srcTwoCodes]⟩, ⟨"OptB", [srcOneCode]⟩]⟩

/-! ## Supporting lemmas -/

theorem interNonempty_nil_right (a : List String) : interNonempty a [] = false := by
  induction a with
  | nil => rfl
  | cons x xs ih => simp [interNonempty, List.any] at ih ⊢

theorem listUnion_nil_left (b : List String) : listUnion [] b = b := by
  unfold listUnion
  simp only [List.nil_append]
  rw [List.filter_eq_self]
  intro x hx
  simp

theorem foldlM_option_skip {α β : Type} (f : β → α → Option β) (s : α)
    (hs : ∀ b, f b s = some b) (l1 l2 : List α) (init : β) :
    List.foldlM f init (l1 ++ s :: l2) = List.foldlM f init (l1 ++ l2) := by
  induction l1 generalizing init with
  | nil => simp [List.foldlM_cons, hs]
  | cons a l1 ih =>
    simp only [List.cons_append, List.foldlM_cons]
    cases f init a <;> simp [ih]

theorem convertVer_version (reg : Registry) (a : Code) (n : Int) (c : Code)
    (h : Code.convertVer reg a n = some c) :
    c.version = if a.version ≥ 83 ∨ n < 83 then a.version else n := by
  unfold Code.convertVer at h
  split at h
  · next hcond =>
    rw [if_pos hcond]
    cases h
    rfl
  · next hcond =>
    rw [if_neg hcond]
    rw [Option.map_eq_some'] at h
    obtain ⟨ms, _, hc⟩ := h
    cases hc
    rfl

theorem mergeScene_version (a b c : Code) (h : Code.mergeScene a b = some c) :
    c.version = a.version := by
  unfold Code.mergeScene at h
  split at h
  · cases h; rfl
  · rw [Option.map_eq_some'] at h
    obtain ⟨s, _, hc⟩ := h
    cases hc
    rfl

theorem mergeModels_version (a b c : Code) (h : Code.mergeModels a b = some c) :
    c.version = a.version := by
  unfold Code.mergeModels at h
  rw [Option.map_eq_some'] at h
  obtain ⟨ms, _, hc⟩ := h
  cases hc
  rfl

/-- C2 (corrected): After `a.merge(b)`, `a`'s version equals the higher of the
two original versions exactly when `a`'s was strictly below 83 and `b`'s at
least 83 (the only case in which `convertVer` acts); in every other case of
differing versions `a` keeps its own version, because `convertVer` is a no-op
away from the 83 boundary. The chunk merging that follows never touches the
version. -/
theorem merge_version_only_crosses_83 (reg : Registry) (a b c : Code)
    (h : Code.merge reg a b = some c) :
    c.version = if a.version < 83 ∧ 83 ≤ b.version then b.version else a.version := by
  unfold Code.merge at h
  rw [Option.bind_eq_some] at h
  obtain ⟨q, hq, h2⟩ := h
  rw [Option.bind_eq_some] at h2
  obtain ⟨a2, ha2, h3⟩ := h2
  have hv : c.version = q.1.version := by
    rw [mergeModels_version a2 q.2 c h3, mergeScene_version q.1 q.2 a2 ha2]
  split at hq
  · next hgt =>
    rw [Option.map_eq_some'] at hq
    obtain ⟨b2, _, hpair⟩ := hq
    rw [hv, ← hpair]
    have : ¬ (a.version < 83 ∧ 83 ≤ b.version) := by omega
    rw [if_neg this]
  · next hngt =>
    split at hq
    · next hlt =>
      rw [Option.map_eq_some'] at hq
      obtain ⟨a3, ha3, hpair⟩ := hq
      have h3v := convertVer_version reg a b.version a3 ha3
      rw [hv, ← hpair]
      simp only
      split at h3v
      · next hc =>
        have : ¬ (a.version < 83 ∧ 83 ≤ b.version) := by omega
        rw [if_neg this, h3v]
      · next hc =>
        have : a.version < 83 ∧ 83 ≤ b.version := by omega
        rw [if_pos this, h3v]
    · next hnlt =>
      cases hq
      have : ¬ (a.version < 83 ∧ 83 ≤ b.version) := by omega
      rw [hv, if_neg this]

/-- C2 counterexample: two empty Codes at versions 68 and 70. `merge` calls
`convertVer(70)` on the lower side, which is a no-op (70 < 83), so the result
keeps version 68 — not the higher of the two original versions (70). -/
theorem merge_version_not_max_counterexample :
    (Code.merge testReg (emptyCodeV 68) (emptyCodeV 70)).map Code.version = some 68 ∧
    (68 : Int) ≠ max 68 70 := by
  constructor
  · decide
  · decide

/-- C2 witness: at versions 68 and 85 the migration fires and the merged
version is the higher one. -/
theorem merge_version_only_crosses_83_witness :
    (emptyCodeV 85).version =
      if (emptyCodeV 68).version < 83 ∧ 83 ≤ (emptyCodeV 85).version
      then (emptyCodeV 85).version else (emptyCodeV 68).version :=
  merge_version_only_crosses_83 testReg (emptyCodeV 68) (emptyCodeV 85)
    (emptyCodeV 85) (by decide)

/-- C1 (code_bug): the round trip breaks on the code's own output. The empty
string parses to the empty Code (version −1), which serializes to `"-1**"`,
and parsing `"-1**"` fails (`rest[0]` raises `IndexError` because nothing
follows the version delimiter), so `parse(serialize(parse("")))` does not
yield a structurally identical Code — it does not yield a Code at all.
Moreover the serializer's output can be misparsed when it does re-parse: for
a code with a scene and an empty-rendering chunk in slot 1, the `**` produced
by the empty slot render is eaten by the version split and the leading `*` of
slot 0 is taken as the scene marker, so the re-parse silently drops the
scene (`aa5.6` becomes an empty scene chunk). -/
theorem parse_serialize_roundtrip_code_bug :
    Code.parse testReg "" = some Code.empty ∧
    Code.str Code.empty = "-1**" ∧
    Code.parse testReg "-1**" = none ∧
    ((Code.parse testReg "68***aa1.2*_*0*0*0*0*0*0#/]aa5.6").map
      (fun c => c.scene.map Chunk.str)) = some (some "aa5.6") ∧
    ((Code.parse testReg "68***aa1.2*_*0*0*0*0*0*0#/]aa5.6").bind (fun c =>
      Code.parse testReg (Code.str c))).map (fun c => c.scene)
      = some (some Chunk.empty) := by
  refine ⟨by decide, by decide, by decide, by decide, by decide⟩

/-- C4 (code_bug): out-of-range integer access returns `'0'` as claimed, but
access by an unrecognized NAME returns the LAST piece, not `'0'`: the failed
name lookup yields index −1 and `self.pieces[-1]` is Python's negative
indexing. Only when the pieces list is empty does the `IndexError` handler
produce the documented `'0'`. -/
theorem get_unknown_name_returns_last_piece :
    Subcode.getByName ⟨tyAA, ["1", "2"], -1, "aa"⟩ "zz" = "2" ∧
    "2" ≠ "0" ∧
    Subcode.getAt ⟨tyAA, ["1", "2"], -1, "aa"⟩ 5 = "0" ∧
    Subcode.getAt ⟨tyAA, ["1", "2"], -1, "aa"⟩ (-1) = "0" ∧
    Subcode.getByName ⟨tyAA, [], -1, "aa"⟩ "zz" = "0" := by
  refine ⟨by decide, by decide, by decide, by decide, by decide⟩

/-- C8 (code_bug): a Source resolving to two Codes aborts the enumeration
when it sits in the terminal Option (`name += sci` concatenates `str` and
`int`, a `TypeError`), while the same Source in a non-terminal Option gets
the intended positional suffixes `S0`/`S1`. -/
theorem terminal_multi_code_source_type_error :
    MixerProgram.enumerate testReg progTwoTerminal = none ∧
    MixerProgram.enumerate testReg progTwoInner =
      some [("out/S0_T", emptyCodeV 68), ("out/S1_T", emptyCodeV 70)] := by
  refine ⟨by decide, by decide⟩

/-- C9 (code_bug): `Component.exclude` synthesizes the singles placeholder
under its tag (`ab`) as claimed, but the arrays placeholder is stored under
`"9"` — `'{:01}'.format(max_index)` with the tag omitted — rather than under
tag + zero-padded first unused index (`"u0"`), and its index is always 0: the
probe key never depends on the loop variable, so no scan happens. -/
theorem exclude_array_placeholder_key_bug :
    Component.exclude ⟨ctHair, []⟩ =
      ⟨ctHair, [("ab", ⟨tyAB, [""], -1, "ab"⟩), ("9", ⟨tyU, ["", ""], 0, "u"⟩)]⟩ ∧
    alistContains (Component.exclude ⟨ctHair, []⟩).subcodes "u0" = false := by
  refine ⟨by decide, by decide⟩

/-- C10 (confirmed): reading an absent entry through the public lookup
interface mutates the container. `Chunk.__getattr__` by a recognized component
name stores a fresh empty Component which the chunk's map then contains, and
`Component.__getitem__` by an unseen key stores the Subcode parsed from that
key, which then shows up in iteration and in the component's serialization. -/
theorem lazy_lookup_inserts_entries :
    Chunk.getattr testReg Chunk.empty "Body" =
      some (⟨ctBody, []⟩, ⟨[(ctBody, ⟨ctBody, []⟩)], []⟩) ∧
    alistContains (⟨[(ctBody, ⟨ctBody, []⟩)], []⟩ : Chunk).components ctBody = true ∧
    Component.getItem testReg ⟨ctBody, []⟩ "aa" =
      some (⟨tyAA, [""], -1, "aa"⟩, ⟨ctBody, [("aa", ⟨tyAA, [""], -1, "aa"⟩)]⟩) ∧
    (⟨ctBody, [("aa", ⟨tyAA, [""], -1, "aa"⟩)]⟩ : Component).subcodes.map Prod.fst = ["aa"] ∧
    Component.str ⟨ctBody, [("aa", ⟨tyAA, [""], -1, "aa"⟩)]⟩ = "aa" := by
  refine ⟨by decide, by decide, by decide, by decide, by decide⟩

theorem mergeLoop_ne_typeMismatch (selfTy : SubcodeType) (mode : String)
    (modes : List String) (oth : List String) (i : Nat) (cur : List String) :
    Subcode.mergeLoop selfTy mode modes oth i cur ≠ .error .typeMismatch := by
  induction oth generalizing i cur with
  | nil => simp [Subcode.mergeLoop]
  | cons oc rest ih =>
    simp only [Subcode.mergeLoop]
    split
    · split
      · exact ih _ _
      · simp
    · exact ih _ _

theorem mergeLoop_ok_of_le (selfTy : SubcodeType) (mode : String)
    (modes : List String) (oth : List String) (i : Nat) (cur : List String)
    (h : oth.length + i ≤ cur.length) :
    ∃ res, Subcode.mergeLoop selfTy mode modes oth i cur = .ok res := by
  induction oth generalizing i cur with
  | nil => exact ⟨cur, rfl⟩
  | cons oc rest ih =>
    simp only [Subcode.mergeLoop]
    split
    · rw [if_pos (by simp at h; omega)]
      exact ih (i + 1) (cur.set i oc) (by rw [List.length_set]; simp at h ⊢; omega)
    · exact ih (i + 1) cur (by simp at h ⊢; omega)

/-- C3 counterexample: the one-element pieces list `['']` is NOT treated as
length zero by the length query — `__len__` requires `len(pieces) > 1` before
looking at the first element, so it reports 1. -/
theorem len_singleton_empty_counterexample :
    Subcode.len ⟨tyAA, [""], -1, "aa"⟩ = 1 ∧ (1 : Nat) ≠ 0 := by
  refine ⟨by decide, by decide⟩

/-- C3 (corrected): merging a non-empty Subcode `A` with a same-type `B`
whose pieces are `['']` in `all` mode does make `A` logically absent — `B`
has reported length 1 (not 0), so rather than the clearing branch, the
overwrite loop fires and writes `''` into position 0, after which `A`
serializes to its bare header and (when it had at least two pieces) reports
length zero. The singleton `['']`, however, reports length 1; only the empty
list and first-element-empty lists of length ≥ 2 report length zero. -/
theorem merge_absence_propagation_amended :
    (∀ (A : Subcode) (idx : Int) (tg : String),
      Subcode.len A ≠ 0 →
      ∃ C, Subcode.merge A ⟨A.subcode_type, [""], idx, tg⟩ "all" = .ok C ∧
        C.pieces.head? = some "" ∧ C.str = C.headerStr ∧
        (2 ≤ A.pieces.length → Subcode.len C = 0)) ∧
    (∀ (ty : SubcodeType) (idx : Int) (tg : String),
      Subcode.len ⟨ty, [""], idx, tg⟩ = 1) ∧
    (∀ (ty : SubcodeType) (ps : List String) (idx : Int) (tg : String),
      ps.head? = some "" → 2 ≤ ps.length → Subcode.len ⟨ty, ps, idx, tg⟩ = 0) := by
  refine ⟨?_, ?_, ?_⟩
  · intro A idx tg hA
    have hne : A.pieces ≠ [] := by
      intro hnil
      exact hA (by simp [Subcode.len, hnil])
    obtain ⟨p, rest, hpr⟩ : ∃ p rest, A.pieces = p :: rest := by
      cases h : A.pieces with
      | nil => exact absurd h hne
      | cons p rest => exact ⟨p, rest, rfl⟩
    refine ⟨{ A with pieces := A.pieces.set 0 "" }, ?_, ?_, ?_, ?_⟩
    · unfold Subcode.merge
      rw [if_neg (by simp)]
      rw [if_neg (by simp [Subcode.len])]
      simp only [Subcode.mergeLoop]
      rw [if_pos (Or.inl trivial)]
      rw [if_pos (by rw [hpr]; simp)]
      rfl
    · rw [hpr]; rfl
    · show Subcode.str _ = Subcode.headerStr _
      unfold Subcode.str
      rw [hpr]
      simp only [List.set_cons_zero]
      have h0 : strJoinSep "." ([] : List String) = "" := rfl
      rw [if_pos trivial, h0]
      exact String.append_empty _
    · intro hlen
      rw [hpr] at hlen
      simp only [List.length_cons] at hlen
      show Subcode.len _ = 0
      unfold Subcode.len
      rw [hpr]
      simp only [List.set_cons_zero, List.length_cons, List.head?_cons]
      rw [if_pos ⟨by omega, trivial⟩]
  · intro ty idx tg
    simp [Subcode.len]
  · intro ty ps idx tg h1 h2
    unfold Subcode.len
    rw [if_pos ⟨show ps.length > 1 by omega, h1⟩]

/-- C3 witness: the merge-absence part at `A = aa["1","2"]`. -/
theorem merge_absence_propagation_witness :
    ∃ C, Subcode.merge ⟨tyAA, ["1", "2"], -1, "aa"⟩ ⟨tyAA, [""], -1, "aa"⟩ "all" = .ok C ∧
      C.pieces.head? = some "" ∧ C.str = C.headerStr ∧
      (2 ≤ (["1", "2"] : List String).length → Subcode.len C = 0) :=
  merge_absence_propagation_amended.1 ⟨tyAA, ["1", "2"], -1, "aa"⟩ (-1) "aa" (by decide)

/-- C5 counterexample: two Subcodes of the SAME type where `other` has more
pieces than `self`; `all`-mode merge raises `IndexError` at the assignment
`self.pieces[i] = other_code`, so merge does not complete for every same-type
pair. -/
theorem merge_longer_other_index_error :
    Subcode.merge ⟨tyAA, ["1"], -1, "aa"⟩ ⟨tyAA, ["1", "2"], -1, "aa"⟩ "all"
      = .error .indexError := by
  rfl

/-- C5 (corrected): `Subcode.merge` fails with the type-mismatch error exactly
when the two SubcodeTypes differ; for same-type operands it completes without
error whenever `other`'s pieces are no longer than `self`'s (the `IndexError`
of the counterexample is only reachable when an overridden position falls past
the end of `self.pieces`). -/
theorem merge_error_characterization_amended :
    (∀ (a b : Subcode) (mode : String),
      Subcode.merge a b mode = .error .typeMismatch ↔ a.subcode_type ≠ b.subcode_type) ∧
    (∀ (a b : Subcode) (mode : String), a.subcode_type = b.subcode_type →
      b.pieces.length ≤ a.pieces.length → ∃ c, Subcode.merge a b mode = .ok c) := by
  constructor
  · intro a b mode
    constructor
    · intro h
      by_contra hne
      unfold Subcode.merge at h
      rw [if_neg (by simp [hne])] at h
      split at h
      · exact absurd h (by simp)
      · cases hm : Subcode.mergeLoop a.subcode_type mode (strSplitOn "." mode)
            b.pieces 0 a.pieces with
        | ok res => rw [hm] at h; exact absurd h (by simp [Except.map])
        | error e =>
          rw [hm] at h
          have he : e = .typeMismatch := by simpa [Except.map] using h
          exact mergeLoop_ne_typeMismatch _ _ _ _ _ _ (he ▸ hm)
    · intro hne
      unfold Subcode.merge
      rw [if_pos hne]
  · intro a b mode hty hlen
    unfold Subcode.merge
    rw [if_neg (by simp [hty])]
    split
    · exact ⟨_, rfl⟩
    · obtain ⟨res, hres⟩ := mergeLoop_ok_of_le a.subcode_type mode (strSplitOn "." mode)
        b.pieces 0 a.pieces (by omega)
      exact ⟨_, by rw [hres]; rfl⟩

/-- C5 witness: a same-type pair with `other` no longer than `self` merges
without error. -/
theorem merge_error_characterization_witness :
    ∃ c, Subcode.merge ⟨tyAA, ["1", "2"], -1, "aa"⟩ ⟨tyAA, ["9"], -1, "aa"⟩ "all"
      = .ok c :=
  merge_error_characterization_amended.2 ⟨tyAA, ["1", "2"], -1, "aa"⟩
    ⟨tyAA, ["9"], -1, "aa"⟩ "all" rfl (by decide)

/-- C6 (confirmed): the whitelist is enforced only at the terminal Option and
over the whole chosen chain. For a one-Option program whose single Source
resolves to one Code, enumeration yields the empty mapping exactly when the
accumulated whitelist is non-empty and some entry is missing from the
accumulated tags. In particular the spec's scenario holds: a lone Source with
`whitelist = [formal]` and no `formal` tag anywhere is discarded, and adding a
second Option whose Source declares `tags = [formal]` retains the branch with
the two Codes merged. -/
theorem whitelist_enforced_at_terminal :
    (∀ (reg : Registry) (s : Source) (dest nm : String) (c : Code),
      s.codes = [c] →
      (MixerProgram.enumerate reg ⟨dest, [⟨nm, [s]⟩]⟩ = some [] ↔
        (s.whitelist ≠ [] ∧ ∃ x ∈ s.whitelist, x ∉ s.tags))) ∧
    MixerProgram.enumerate testReg progWlAlone = some [] ∧
    MixerProgram.enumerate testReg progWlPair = some [("out/A_B", emptyCodeV 68)] := by
  refine ⟨?_, by decide, by decide⟩
  intro reg s dest nm c hc
  have h1 : interNonempty s.tags [] = false := interNonempty_nil_right _
  have h2 : interNonempty s.blacklist [] = false := interNonempty_nil_right _
  by_cases hrhs : s.whitelist ≠ [] ∧ ∃ x ∈ s.whitelist, x ∉ s.tags
  · obtain ⟨hne, x, hx1, hx2⟩ := hrhs
    have hw1 : s.whitelist.isEmpty = false := by
      simp [List.isEmpty_iff, hne]
    have hw2 : diffNonempty s.whitelist s.tags = true := by
      simp only [diffNonempty, List.any_eq_true]
      exact ⟨x, hx1, by simpa [List.elem_iff] using hx2⟩
    refine iff_of_true ?_ ⟨hne, x, hx1, hx2⟩
    simp [MixerProgram.enumerate, enumAuxF, h1, h2, listUnion_nil_left, hw1, hw2]
    exact fun h => absurd h hne
  · rw [not_and_or] at hrhs
    have hwb : ((!s.whitelist.isEmpty) && diffNonempty s.whitelist s.tags) = false := by
      rcases hrhs with h | h
      · have hne : s.whitelist = [] := not_not.mp h
        simp [hne]
      · push_neg at h
        have hd : diffNonempty s.whitelist s.tags = false := by
          simp only [diffNonempty, List.any_eq_false]
          intro x hx
          simpa [List.elem_iff] using h x hx
        simp [hd]
    refine iff_of_false ?_ ?_
    · simp [MixerProgram.enumerate, enumAuxF, h1, h2, listUnion_nil_left, hwb, hc,
        dictInsert, alistInsert]
      intro h
      have hie : s.whitelist.isEmpty = false := by simp [List.isEmpty_iff, h]
      simpa [hie] using hwb
    · exact not_and_or.mpr hrhs

/-- C6 witness: the general part applied to the lone whitelist-only Source. -/
theorem whitelist_enforced_at_terminal_witness :
    MixerProgram.enumerate testReg ⟨"out", [⟨"OptA", [srcWlOnly]⟩]⟩ = some [] :=
  (whitelist_enforced_at_terminal.1 testReg srcWlOnly "out" "OptA"
    (emptyCodeV 68) rfl).mpr (by decide)

/-- C7 (confirmed): at each Option a Source is skipped exactly when its tags
meet the accumulated blacklist or its blacklist meets the accumulated tags
(the symmetric check): removing such a Source from its Option leaves the
enumeration unchanged, the skip guard is equivalent to the claim's two
intersection conditions, and the spec's scenario (`tags = [red]` in Option A
against `blacklist = [red]` in Option B) produces zero combinations. -/
theorem symmetric_tag_exclusion :
    (∀ (reg : Registry) (fuel : Nat) (nm : String) (ss1 : List Source) (s : Source)
      (ss2 : List Source) (rest : List MixerOption) (tags bl wl : List String),
      (interNonempty s.tags bl || interNonempty s.blacklist tags) = true →
      enumAuxF reg (fuel + 1) (⟨nm, ss1 ++ s :: ss2⟩ :: rest) tags bl wl
        = enumAuxF reg (fuel + 1) (⟨nm, ss1 ++ ss2⟩ :: rest) tags bl wl) ∧
    (∀ (s : Source) (tags bl : List String),
      (interNonempty s.tags bl || interNonempty s.blacklist tags) = true ↔
        ((∃ x ∈ s.tags, x ∈ bl) ∨ (∃ x ∈ s.blacklist, x ∈ tags))) ∧
    MixerProgram.enumerate testReg progRed = some [] := by
  refine ⟨?_, ?_, by decide⟩
  · intro reg fuel nm ss1 s ss2 rest tags bl wl hskip
    simp only [enumAuxF]
    exact foldlM_option_skip _ s (fun b => by rw [if_pos hskip]) ss1 ss2 []
  · intro s tags bl
    simp [interNonempty, List.any_eq_true, List.elem_iff]

/-- C7 witness: removing the skipped `blacklist = [red]` Source leaves the
(sub-)enumeration unchanged. -/
theorem symmetric_tag_exclusion_witness :
    enumAuxF testReg 1 [⟨"OptB", [] ++ srcBlRed :: []⟩] ["red"] [] []
      = enumAuxF testReg 1 [⟨"OptB", [] ++ []⟩] ["red"] [] [] :=
  symmetric_tag_exclusion.1 testReg 0 "OptB" [] srcBlRed [] [] ["red"] [] [] (by decide)
